import Mathlib

/-!
# Verification of the jumpstarter-controller core against its specification

Shallow embedding of the jumpstarter-controller (Go) data model and
operations, with theorems settling the spec claims.

Conventions:
* Kubernetes label maps (`map[string]string`) are embedded as association
  lists `List (String × String)`; lookup takes the first entry for a key.
* Wall-clock instants and durations are `Nat` (seconds).
* Go `error` results are embedded as `Except JErr α`; `JErr` distinguishes
  errors built with an explicit gRPC status code (`status.Errorf`) from
  plain Go errors (`fmt.Errorf`).
-/

namespace Jumpstarter

/-- gRPC status codes, as used in the source and in the spec's error table. -/
inductive GrpcCode where
  | unauthenticated
  | permissionDenied
  | notFound
  | invalidArgument
  | failedPrecondition
  | resourceExhausted
  | unavailable
  | internal
  | unknown
deriving DecidableEq, Repr

/-- An error value: either a `status.Errorf(code, msg)` gRPC status error,
or a plain `fmt.Errorf(msg)` Go error (which gRPC transports as `Unknown`). -/
inductive JErr where
  | grpcStatus (code : GrpcCode) (msg : String)
  | goError (msg : String)
deriving DecidableEq, Repr

/-- First-match lookup in an association list embedding of a Go string map. -/
def lookupKey (k : String) : List (String × String) → Option String
  | [] => none
  | kv :: rest => if kv.1 = k then some kv.2 else lookupKey k rest

theorem lookupKey_append (k : String) (a b : List (String × String)) :
    lookupKey k (a ++ b) =
      match lookupKey k a with
      | some v => some v
      | none => lookupKey k b := by
  induction a with
  | nil => simp [lookupKey]
  | cons kv rest ih =>
      by_cases h : kv.1 = k
      · simp [lookupKey, h]
      · simp [lookupKey, h, ih]

theorem lookupKey_filter (k : String) (p : String → Bool) (l : List (String × String)) :
    lookupKey k (l.filter fun kv => p kv.1) =
      if p k then lookupKey k l else none := by
  induction l with
  | nil => simp [lookupKey]
  | cons kv rest ih =>
      by_cases hk : kv.1 = k
      · subst hk
        cases hp : p kv.1 <;> simp [lookupKey, hp, ih]
      · cases hp : p kv.1 <;> simp [List.filter, lookupKey, hp, hk, ih]

/-- A reported device (`jumpstarterdevv1alpha1.Device`). -/
structure Device where
  uuid : String
  parentUuid : String
  labels : List (String × String)
deriving DecidableEq, Repr

/-- `strings.HasPrefix(k, "jumpstarter.dev/")`, the owner-managed label
namespace test used by `ControllerService.Register`. -/
def jsLabelKey (k : String) : Bool := "jumpstarter.dev/".isPrefixOf k

/-- An `Exporter` object: metadata (name, uid, labels) plus the status
fields used by the embedded operations (`ExporterStatus`). -/
structure Exporter where
  name : String
  uid : String
  labels : List (String × String)
  devices : List Device
  conditions : List (String × Bool)
  leaseRef : Option String
deriving DecidableEq, Repr

/-- `pb.RegisterRequest`: the labels and device reports sent by an exporter. -/
structure RegisterRequest where
  labels : List (String × String)
  reports : List Device
deriving DecidableEq, Repr

/-- `pb.RegisterResponse`: carries the exporter UID. -/
structure RegisterResponse where
  uuid : String
deriving DecidableEq, Repr

/-- Label replacement performed by `ControllerService.Register`:
delete every label whose key has the `jumpstarter.dev/` prefix, then insert
the request labels that have that prefix (the loop over `req.Labels` only
copies prefixed keys). -/
def registerLabels (old reqLabels : List (String × String)) : List (String × String) :=
  (old.filter fun kv => !jsLabelKey kv.1) ++ (reqLabels.filter fun kv => jsLabelKey kv.1)

/-- `ControllerService.Register` after successful authentication: patches the
exporter labels, overwrites `status.devices` with the reported device list,
and returns the exporter UID. -/
def register (e : Exporter) (req : RegisterRequest) : Exporter × RegisterResponse :=
  ({ e with
      labels := registerLabels e.labels req.labels,
      devices := req.reports.map fun d =>
        { uuid := d.uuid, parentUuid := d.parentUuid, labels := d.labels } },
   { uuid := e.uid })

/-- **C7.** For every Register call by an authenticated exporter: labels with
the `jumpstarter.dev/` prefix are replaced by exactly the prefixed labels of
the request, labels without the prefix are ignored from the request and kept
from the object, `status.devices` is overwritten with the reported device
list, and the response carries the exporter's UID. -/
theorem register_replaces_js_labels (e : Exporter) (req : RegisterRequest) (k : String) :
    (lookupKey k (register e req).1.labels =
      if jsLabelKey k then lookupKey k (req.labels.filter fun kv => jsLabelKey kv.1)
      else lookupKey k e.labels)
    ∧ (register e req).1.devices = req.reports.map (fun d =>
        { uuid := d.uuid, parentUuid := d.parentUuid, labels := d.labels })
    ∧ (register e req).2.uuid = e.uid := by
  refine ⟨?_, rfl, rfl⟩
  show lookupKey k (registerLabels e.labels req.labels) = _
  unfold registerLabels
  rw [lookupKey_append]
  have hold := lookupKey_filter k (fun s => !jsLabelKey s) e.labels
  have hreq := lookupKey_filter k (fun s => jsLabelKey s) req.labels
  cases hjs : jsLabelKey k
  · simp only [hjs, Bool.not_false, if_true, if_false] at hold hreq ⊢
    rw [hold, hreq]
    cases lookupKey k e.labels <;> simp
  · simp only [hjs, Bool.not_true, if_true, if_false] at hold hreq ⊢
    have hold2 : lookupKey k (e.labels.filter fun kv => !jsLabelKey kv.1) = none := by
      simpa using hold
    rw [hold2]

/-! ## Tokens: `ControllerService.Dial` ticket and `RouterService.authenticate` -/

/-- RFC 7519 registered claims as used via `jwt.RegisteredClaims`. -/
structure JwtClaims where
  issuer : String
  subject : String
  audience : List String
  expiresAt : Option Nat
  notBefore : Option Nat
  issuedAt : Option Nat
  jwtId : String
deriving DecidableEq, Repr

/-- An HMAC-signed JWT, embedded structurally: `alg` is the header algorithm
and `key` the signing secret; signature verification succeeds exactly when
the verifier holds the same symmetric key. -/
structure SignedToken where
  claims : JwtClaims
  alg : String
  key : String
deriving DecidableEq, Repr

def streamIssuer : String := "https://jumpstarter.dev/stream"

def routerAud : String := "https://jumpstarter.dev/router"

/-- `jwt.WithValidMethods([]string{HS256, HS384, HS512})`. -/
def hmacAlgs : List String := ["HS256", "HS384", "HS512"]

/-- The router ticket minted by `ControllerService.Dial`: HS256 over the
`ROUTER_KEY` secret, subject = freshly allocated stream ID, router audience,
`ExpiresAt = now + 30 minutes`, `NotBefore = IssuedAt = now`. -/
def dialToken (routerKey streamId jti : String) (now : Nat) : SignedToken :=
  { claims :=
      { issuer := streamIssuer
        subject := streamId
        audience := [routerAud]
        expiresAt := some (now + 30 * 60)
        notBefore := some now
        issuedAt := some now
        jwtId := jti }
    alg := "HS256"
    key := routerKey }

/-- Validity checks applied by `RouterService.authenticate` through
`jwt.ParseWithClaims`: signature under the router key, pinned issuer and
audience, issued-at and not-before validated when present, expiry required
and in the future, and an HMAC algorithm from the allow-list. -/
def routerTokenValid (routerKey : String) (tok : SignedToken) (now : Nat) : Bool :=
  (tok.key == routerKey)
  && hmacAlgs.contains tok.alg
  && (tok.claims.issuer == streamIssuer)
  && tok.claims.audience.contains routerAud
  && (match tok.claims.issuedAt with | some t => decide (t ≤ now) | none => true)
  && (match tok.claims.notBefore with | some t => decide (t ≤ now) | none => true)
  && (match tok.claims.expiresAt with | some t => decide (now < t) | none => false)

/-- `RouterService.authenticate`: on success the stream ID (token subject) is
returned; on any parse/validation failure the source returns
`status.Errorf(codes.InvalidArgument, "invalid jwt token")`. -/
def routerAuthenticate (routerKey : String) (tok : SignedToken) (now : Nat) :
    Except JErr String :=
  if routerTokenValid routerKey tok now then .ok tok.claims.subject
  else .error (.grpcStatus .invalidArgument "invalid jwt token")

/-- **C8 (counterexample).** A Dial-issued ticket presented at its expiry
instant is rejected, but with `InvalidArgument`, not `Unauthenticated`:
the claim's error code is wrong for the code under `src/`. -/
theorem routerAuthenticate_expired_not_unauthenticated :
    routerAuthenticate "k" (dialToken "k" "sid" "jti" 0) (30 * 60)
      = .error (.grpcStatus .invalidArgument "invalid jwt token")
    ∧ JErr.grpcStatus .invalidArgument "invalid jwt token"
      ≠ JErr.grpcStatus .unauthenticated "invalid jwt token" := by
  constructor
  · rfl
  · decide

/-- **C8 (amended).** Every router token issued by Dial carries the stream ID
as subject, the router audience, and expiry exactly 30 minutes after
issuance; the router accepts it while valid (returning the subject), and
rejects any token failing validation with an `InvalidArgument`
(`"invalid jwt token"`) error — not `Unauthenticated`. -/
theorem dialToken_routerAuthenticate (routerKey sid jti : String) (t now : Nat)
    (tok : SignedToken)
    (h1 : t ≤ now) (h2 : now < t + 30 * 60)
    (hbad : routerTokenValid routerKey tok now = false) :
    (dialToken routerKey sid jti t).claims.subject = sid
    ∧ (dialToken routerKey sid jti t).claims.audience = [routerAud]
    ∧ (dialToken routerKey sid jti t).claims.expiresAt = some (t + 30 * 60)
    ∧ routerAuthenticate routerKey (dialToken routerKey sid jti t) now = .ok sid
    ∧ routerAuthenticate routerKey tok now
        = .error (.grpcStatus .invalidArgument "invalid jwt token") := by
  refine ⟨rfl, rfl, rfl, ?_, ?_⟩
  · have hv : routerTokenValid routerKey (dialToken routerKey sid jti t) now = true := by
      simp [routerTokenValid, dialToken, hmacAlgs, h1, h2]
    unfold routerAuthenticate
    rw [hv]
    simp [dialToken]
  · simp [routerAuthenticate, hbad]

/-- Witness for `dialToken_routerAuthenticate` at a concrete key, window and
invalid (wrong-key) token. -/
theorem dialToken_routerAuthenticate_witness :
    (10 ≤ 20 ∧ 20 < 10 + 30 * 60
      ∧ routerTokenValid "k" (dialToken "other" "s" "j" 10) 20 = false)
    ∧ ((dialToken "k" "s" "j" 10).claims.subject = "s"
      ∧ (dialToken "k" "s" "j" 10).claims.audience = [routerAud]
      ∧ (dialToken "k" "s" "j" 10).claims.expiresAt = some (10 + 30 * 60)
      ∧ routerAuthenticate "k" (dialToken "k" "s" "j" 10) 20 = .ok "s"
      ∧ routerAuthenticate "k" (dialToken "other" "s" "j" 10) 20
          = .error (.grpcStatus .invalidArgument "invalid jwt token")) :=
  ⟨⟨by decide, by decide, by decide⟩,
    dialToken_routerAuthenticate "k" "s" "j" 10 20 (dialToken "other" "s" "j" 10)
      (by decide) (by decide) (by decide)⟩

/-! ## Listen queues and `ControllerService.Dial`'s queue send -/

/-- `pb.ListenResponse`: the message pushed onto a lease's listen queue. -/
structure ListenResponse where
  routerEndpoint : String
  routerToken : SignedToken
deriving DecidableEq, Repr

/-- `make(chan *pb.ListenResponse, 8)`: the capacity each per-lease listen
queue is created with, on first use, by both `Listen` and `Dial`. -/
def listenQueueCapacity : Nat := 8

/-- Outcome of `Dial`'s send on the listen queue: the source runs
`select { case <-ctx.Done(): return nil, ctx.Err(); case queue <- response: }`.
`grpcError` is representable but never produced by this select. -/
inductive DialSendOutcome where
  | delivered (q : List ListenResponse)
  | ctxCancelled
  | blocked
  | grpcError (code : GrpcCode)
deriving DecidableEq, Repr

/-- The queue send in `ControllerService.Dial`: with the request context
done it returns `ctx.Err()`; with buffer space the message is enqueued;
with the buffer full and the context live the send blocks. -/
def dialSend (q : List ListenResponse) (msg : ListenResponse) (ctxDone : Bool) :
    DialSendOutcome :=
  if ctxDone then .ctxCancelled
  else if q.length < listenQueueCapacity then .delivered (q ++ [msg])
  else .blocked

/-- A sample message, for concrete listen-queue states. -/
def sampleMsg : ListenResponse :=
  { routerEndpoint := "r1", routerToken := dialToken "k" "s" "j" 0 }

/-- **C4 (counterexample).** With the listen queue full (8 messages) and the
request context live, `Dial`'s send blocks; it does not return a
`ResourceExhausted` error. -/
theorem dialSend_full_blocks :
    dialSend (List.replicate 8 sampleMsg) sampleMsg false = .blocked
    ∧ DialSendOutcome.blocked ≠ .grpcError .resourceExhausted := by
  constructor
  · rfl
  · decide

/-- **C4 (amended).** Each per-lease listen queue is created with capacity
exactly 8; a `Dial` that finds the queue with free space enqueues the
`ListenResponse`; a `Dial` that finds the queue full blocks (or returns the
context error once the request context is cancelled) — it never returns
`ResourceExhausted`. -/
theorem dialSend_capacity_and_overflow (q : List ListenResponse) (msg : ListenResponse) :
    listenQueueCapacity = 8
    ∧ (q.length < 8 → dialSend q msg false = .delivered (q ++ [msg]))
    ∧ (8 ≤ q.length → dialSend q msg false = .blocked)
    ∧ (8 ≤ q.length → dialSend q msg true = .ctxCancelled) := by
  refine ⟨rfl, ?_, ?_, ?_⟩
  · intro h
    simp [dialSend, listenQueueCapacity, h]
  · intro h
    simp [dialSend, listenQueueCapacity, Nat.not_lt.mpr h]
  · intro h
    simp [dialSend]

/-- Witness for `dialSend_capacity_and_overflow` on a concrete full queue. -/
theorem dialSend_capacity_and_overflow_witness :
    listenQueueCapacity = 8
    ∧ ((List.replicate 8 sampleMsg).length < 8 →
        dialSend (List.replicate 8 sampleMsg) sampleMsg false
          = .delivered (List.replicate 8 sampleMsg ++ [sampleMsg]))
    ∧ (8 ≤ (List.replicate 8 sampleMsg).length →
        dialSend (List.replicate 8 sampleMsg) sampleMsg false = .blocked)
    ∧ (8 ≤ (List.replicate 8 sampleMsg).length →
        dialSend (List.replicate 8 sampleMsg) sampleMsg true = .ctxCancelled) :=
  dialSend_capacity_and_overflow (List.replicate 8 sampleMsg) sampleMsg

/-! ## `RouterService.Stream` and the pending map -/

/-- One party of a router stream pairing (a `streamContext`: the parked
server stream together with its cancel function). -/
structure StreamConn where
  connId : Nat
deriving DecidableEq, Repr

/-- Outcome of `RouterService.Stream` for one authenticated arrival.
`rejected` is representable but never produced by the source. -/
inductive StreamOutcome where
  | parked
  | spliced (peer : StreamConn)
  | rejected (code : GrpcCode)
deriving DecidableEq, Repr

/-- `RouterService.Stream` after authentication under stream ID `sid`:
`s.pending.LoadOrStore(sid, sctx)` — when an entry is already present the
arrival cancels it and forwards to it (`Forward`); otherwise the arrival is
stored and parked on `ctx.Done()`. Neither branch deletes the entry. -/
def streamArrive (pending : List (String × StreamConn)) (sid : String) (c : StreamConn) :
    (List (String × StreamConn)) × StreamOutcome :=
  match (pending.find? fun e => e.1 == sid).map (·.2) with
  | some other => (pending, .spliced other)
  | none => ((sid, c) :: pending, .parked)

/-- **C3 (counterexample).** Three arrivals under one stream ID: the third is
not rejected with `FailedPrecondition`; it is spliced to the still-stored
first half, and the pending-map entry is still present afterwards. -/
theorem streamArrive_third_not_rejected :
    (streamArrive (streamArrive (streamArrive [] "s" ⟨1⟩).1 "s" ⟨2⟩).1 "s" ⟨3⟩).2
      = StreamOutcome.spliced ⟨1⟩
    ∧ StreamOutcome.spliced ⟨1⟩ ≠ StreamOutcome.rejected GrpcCode.failedPrecondition
    ∧ ((streamArrive (streamArrive (streamArrive [] "s" ⟨1⟩).1 "s" ⟨2⟩).1 "s" ⟨3⟩).1.find?
        fun e => e.1 == "s") = some ("s", ⟨1⟩) := by
  refine ⟨rfl, by decide, rfl⟩

/-- **C3 (amended).** For a stream ID with no pending entry, the first
arrival is parked and registered; the second is spliced to the first; a
third arrival is again spliced to the still-registered first half rather
than rejected; the pending-map entry is not removed by any of these steps
(the source never deletes from `pending`). -/
theorem streamArrive_pairing (m : List (String × StreamConn)) (sid : String)
    (c1 c2 c3 : StreamConn)
    (hfresh : (m.find? fun e => e.1 == sid) = none) :
    streamArrive m sid c1 = ((sid, c1) :: m, .parked)
    ∧ streamArrive ((sid, c1) :: m) sid c2 = ((sid, c1) :: m, .spliced c1)
    ∧ streamArrive ((sid, c1) :: m) sid c3 = ((sid, c1) :: m, .spliced c1) := by
  refine ⟨?_, ?_, ?_⟩
  · simp [streamArrive, hfresh]
  · simp [streamArrive]
  · simp [streamArrive]

/-- Witness for `streamArrive_pairing` on the empty pending map. -/
theorem streamArrive_pairing_witness :
    (([] : List (String × StreamConn)).find? fun e => e.1 == "s") = none
    ∧ (streamArrive [] "s" ⟨1⟩ = ([("s", ⟨1⟩)], .parked)
      ∧ streamArrive [("s", ⟨1⟩)] "s" ⟨2⟩ = ([("s", ⟨1⟩)], .spliced ⟨1⟩)
      ∧ streamArrive [("s", ⟨1⟩)] "s" ⟨3⟩ = ([("s", ⟨1⟩)], .spliced ⟨1⟩)) :=
  ⟨rfl, streamArrive_pairing [] "s" ⟨1⟩ ⟨2⟩ ⟨3⟩ rfl⟩

/-! ## Lease data model -/

/-- `LeaseSpec`: client reference, selector (embedded as its `matchLabels`),
requested duration, optional begin/end times and the release flag. -/
structure LeaseSpec where
  clientRef : String
  selector : List (String × String)
  duration : Nat
  beginTime : Option Nat
  endTime : Option Nat
  release : Bool
deriving DecidableEq, Repr

/-- `LeaseStatus`: observed times, assigned exporter, ended flag and
conditions (embedded as `type ↦ status` pairs, set-by-type). -/
structure LeaseStatus where
  beginTime : Option Nat
  endTime : Option Nat
  exporterRef : Option String
  ended : Bool
  conditions : List (String × Bool)
deriving DecidableEq, Repr

/-- A `Lease` object. -/
structure Lease where
  name : String
  spec : LeaseSpec
  status : LeaseStatus
deriving DecidableEq, Repr

/-! ## `ControllerService.GetLease` response times -/

/-- The `(BeginTime, EndTime)` pair of the `pb.GetLeaseResponse` built by
`ControllerService.GetLease`: the source declares `var endTime` but the
branch on `lease.Status.EndTime` assigns `beginTime` (not `endTime`), so
`endTime` keeps its zero value and `beginTime` is overwritten. -/
def getLeaseResponseTimes (st : LeaseStatus) : Option Nat × Option Nat :=
  let beginTime1 : Option Nat :=
    match st.beginTime with
    | some t => some t
    | none => none
  let beginTime2 : Option Nat :=
    match st.endTime with
    | some t => some t
    | none => beginTime1
  (beginTime2, (none : Option Nat))

/-- **C10.** The GetLease response never populates `EndTime`, and whenever
`status.endTime` is set the response's `BeginTime` carries that value,
overwriting the value taken from `status.beginTime`. -/
theorem getLeaseResponseTimes_swapped (st st2 : LeaseStatus) (t : Nat)
    (h : st2.endTime = some t) :
    (getLeaseResponseTimes st).2 = none ∧ (getLeaseResponseTimes st2).1 = some t := by
  constructor
  · rfl
  · simp [getLeaseResponseTimes, h]

/-- A concrete lease status with both times set. -/
def sampleStatus : LeaseStatus :=
  { beginTime := some 5, endTime := some 9, exporterRef := none,
    ended := false, conditions := [] }

/-- Witness for `getLeaseResponseTimes_swapped` on a status with both times
set. -/
theorem getLeaseResponseTimes_swapped_witness :
    sampleStatus.endTime = some 9
    ∧ ((getLeaseResponseTimes sampleStatus).2 = none
      ∧ (getLeaseResponseTimes sampleStatus).1 = some 9) :=
  ⟨rfl, getLeaseResponseTimes_swapped sampleStatus sampleStatus 9 rfl⟩

/-! ## `ControllerService.Dial` -/

/-- `pb.DialResponse` returned to the client. -/
structure DialResponse where
  routerEndpoint : String
  routerToken : SignedToken
deriving DecidableEq, Repr

/-- `s.Client.Get` of a lease by name (within the caller's namespace). -/
def findLease (leases : List Lease) (name : String) : Option Lease :=
  leases.find? fun l => l.name == name

/-- The current contents of a lease's listen queue (`LoadOrStore` reading
side: a missing queue is a fresh empty one). -/
def getListenQueue (queues : List (String × List ListenResponse)) (leaseName : String) :
    List ListenResponse :=
  match queues.find? (fun e => e.1 == leaseName) with
  | some q => q.2
  | none => []

/-- Replace (or create) a lease's listen queue. -/
def setListenQueue (queues : List (String × List ListenResponse)) (leaseName : String)
    (q : List ListenResponse) : List (String × List ListenResponse) :=
  if queues.any (fun e => e.1 == leaseName) then
    queues.map fun e => if e.1 == leaseName then (leaseName, q) else e
  else (leaseName, q) :: queues

/-- `ControllerService.Dial` after client authentication. Checks in source
order: empty lease name; lease fetched from the store (the store's not-found
error is surfaced as-is); `lease.Spec.ClientRef.Name != client.Name` yields
the plain error `"permission denied"` before anything is pushed; the router
ticket is signed; `endpoint` is taken from one entry of the configured
router map (`routers` embeds the map as a list, the selected entry as its
head, the empty map leaving `endpoint` at its zero value `""`), and the
source's `endpoint == ""` guard yields `"no router available"`; finally one
`ListenResponse` is sent to the lease's listen queue. `none` as first
component means the RPC has not returned (the queue send is blocking). -/
def dial (leases : List Lease) (queues : List (String × List ListenResponse))
    (routers : List (String × String)) (routerKey caller leaseName streamId jti : String)
    (now : Nat) (ctxDone : Bool) :
    Option (Except JErr DialResponse) × List (String × List ListenResponse) :=
  if leaseName = "" then (some (.error (.goError "empty lease name")), queues)
  else
    match findLease leases leaseName with
    | none => (some (.error (.goError "unable to get lease")), queues)
    | some lease =>
      if lease.spec.clientRef ≠ caller then
        (some (.error (.goError "permission denied")), queues)
      else
        let tok := dialToken routerKey streamId jti now
        let endpoint :=
          match routers with
          | [] => ""
          | (_, ep) :: _ => ep
        if endpoint = "" then (some (.error (.goError "no router available")), queues)
        else
          let response : ListenResponse :=
            { routerEndpoint := endpoint, routerToken := tok }
          match dialSend (getListenQueue queues leaseName) response ctxDone with
          | .delivered q2 =>
              (some (.ok { routerEndpoint := endpoint, routerToken := tok }),
                setListenQueue queues leaseName q2)
          | .ctxCancelled => (some (.error (.goError "context cancelled")), queues)
          | .blocked => (none, queues)
          | .grpcError c => (some (.error (.grpcStatus c "")), queues)

/-- A concrete one-lease store for the Dial theorems. -/
def sampleLease : Lease :=
  { name := "lease1"
    spec := { clientRef := "client-a", selector := [], duration := 60,
              beginTime := none, endTime := none, release := false }
    status := { beginTime := none, endTime := none, exporterRef := none,
                ended := false, conditions := [] } }

/-- **C5 (counterexample).** A Dial by a client that does not hold the lease
fails with the plain Go error `"permission denied"` (`fmt.Errorf`, carried
by gRPC as code `Unknown`), which is not a `PermissionDenied` status
error. -/
theorem dial_unknown_not_permission_denied :
    dial [sampleLease] [] [("r1", "router:8083")] "k" "client-b" "lease1"
        "sid" "jti" 7 false
      = (some (.error (.goError "permission denied")), [])
    ∧ JErr.goError "permission denied"
      ≠ JErr.grpcStatus .permissionDenied "permission denied" := by
  constructor
  · rfl
  · decide

/-- **C5 (amended).** If the lease named in a Dial request is not held by
the caller, Dial fails with the plain error `"permission denied"` (gRPC
code `Unknown`, not `PermissionDenied`) and the listen queues are left
untouched (no `ListenResponse` is pushed); when the lease is held by the
caller (and a router with a non-empty endpoint is configured and the queue
accepts), Dial returns the selected router endpoint together with the
freshly signed router token, and exactly that message is appended to the
lease's queue. -/
theorem dial_holder_check (leases : List Lease)
    (queues : List (String × List ListenResponse)) (rname endpoint : String)
    (rtail : List (String × String)) (routerKey caller leaseName streamId jti : String)
    (now : Nat) (lease : Lease)
    (hname : leaseName ≠ "")
    (hfind : findLease leases leaseName = some lease) :
    (lease.spec.clientRef ≠ caller →
      dial leases queues ((rname, endpoint) :: rtail) routerKey caller leaseName
          streamId jti now false
        = (some (.error (.goError "permission denied")), queues))
    ∧ (lease.spec.clientRef = caller →
      endpoint ≠ "" →
      (getListenQueue queues leaseName).length < listenQueueCapacity →
      dial leases queues ((rname, endpoint) :: rtail) routerKey caller leaseName
          streamId jti now false
        = (some (.ok { routerEndpoint := endpoint,
                       routerToken := dialToken routerKey streamId jti now }),
            setListenQueue queues leaseName
              (getListenQueue queues leaseName
                ++ [{ routerEndpoint := endpoint,
                      routerToken := dialToken routerKey streamId jti now }]))) := by
  constructor
  · intro hne
    simp [dial, hname, hfind, hne]
  · intro heq hep hlen
    simp [dial, hname, hfind, heq, hep, dialSend, hlen]

/-- Witness for `dial_holder_check`: a stranger is denied with the queue
untouched; the holder gets the endpoint and token and the message is
queued. -/
theorem dial_holder_check_witness :
    ("lease1" ≠ "" ∧ findLease [sampleLease] "lease1" = some sampleLease)
    ∧ ((sampleLease.spec.clientRef ≠ "client-b" →
        dial [sampleLease] [] [("r1", "router:8083")] "k" "client-b" "lease1"
            "sid" "jti" 7 false
          = (some (.error (.goError "permission denied")), []))
      ∧ (sampleLease.spec.clientRef = "client-b" →
        "router:8083" ≠ "" →
        (getListenQueue [] "lease1").length < listenQueueCapacity →
        dial [sampleLease] [] [("r1", "router:8083")] "k" "client-b" "lease1"
            "sid" "jti" 7 false
          = (some (.ok { routerEndpoint := "router:8083",
                         routerToken := dialToken "k" "sid" "jti" 7 }),
              setListenQueue [] "lease1"
                (getListenQueue [] "lease1"
                  ++ [{ routerEndpoint := "router:8083",
                        routerToken := dialToken "k" "sid" "jti" 7 }])))) :=
  ⟨⟨by decide, by decide⟩,
    dial_holder_check [sampleLease] [] "r1" "router:8083" [] "k" "client-b" "lease1"
      "sid" "jti" 7 sampleLease (by decide) (by decide)⟩

/-! ## Lease time triple and `ClientService.UpdateLease` -/

/-- Modelled from the spec: `ReconcileLeaseTimeFields` is called by
`ClientService.UpdateLease` but its definition is not among the provided
sources. Per the spec (§8, invariant 4 and §4.2): the triple must satisfy
`endTime = beginTime + duration`, any two of the fields determine the
third, and requests that violate the equation are rejected. A zero
duration plays the role of an unset `Duration`. -/
def reconcileLeaseTimeFields (b e : Option Nat) (d : Nat) :
    Except JErr (Option Nat × Option Nat × Nat) :=
  match b, e with
  | some b0, some e0 =>
      if d ≠ 0 then
        if e0 = b0 + d then .ok (some b0, some e0, d)
        else .error (.goError "inconsistent lease time fields")
      else if b0 ≤ e0 then .ok (some b0, some e0, e0 - b0)
      else .error (.goError "inconsistent lease time fields")
  | some b0, none =>
      if d ≠ 0 then .ok (some b0, some (b0 + d), d) else .ok (some b0, none, d)
  | none, some e0 =>
      if d ≠ 0 then
        if d ≤ e0 then .ok (some (e0 - d), some e0, d)
        else .error (.goError "inconsistent lease time fields")
      else .ok (none, some e0, d)
  | none, none => .ok (none, none, d)

/-- `cpb.UpdateLeaseRequest` time fields with protobuf field presence:
`some` means the field was provided. -/
structure UpdateLeaseRequest where
  beginTime : Option Nat
  duration : Option Nat
  endTime : Option Nat
deriving DecidableEq, Repr

/-- Field-presence merge done by `UpdateLease`: each provided field replaces
the stored one, absent fields are preserved. -/
def mergeLeaseTimeReq (spec : LeaseSpec) (req : UpdateLeaseRequest) : LeaseSpec :=
  { spec with
      beginTime := match req.beginTime with | some v => some v | none => spec.beginTime
      duration :=
        match req.duration with
        | some v => v
        | none => spec.duration
      endTime := match req.endTime with | some v => some v | none => spec.endTime }

/-- `UpdateLease`'s guard on `BeginTime`: it may only be set before the
lease has started (`Status.ExporterRef == nil`); on a started lease only a
no-op rewrite of the already-stored value is allowed. -/
def beginUpdateAllowed (stored : Lease) (req : UpdateLeaseRequest) : Bool :=
  match req.beginTime with
  | none => true
  | some b =>
      if stored.status.exporterRef.isSome then
        match stored.spec.beginTime with
        | some b0 => b0 == b
        | none => false
      else true

/-- `ClientService.UpdateLease` after authentication: permission check
against the lease's client, `BeginTime` guard, field-presence merge, then
`ReconcileLeaseTimeFields` revalidation; only on success is the patched
lease produced. -/
def updateLease (stored : Lease) (caller : String) (req : UpdateLeaseRequest) :
    Except JErr Lease :=
  if stored.spec.clientRef ≠ caller then .error (.goError "UpdateLease permission denied")
  else if !beginUpdateAllowed stored req then
    .error (.goError "cannot update BeginTime: lease has already started")
  else
    let m := mergeLeaseTimeReq stored.spec req
    match reconcileLeaseTimeFields m.beginTime m.endTime m.duration with
    | .error err => .error err
    | .ok (b2, e2, d2) =>
        .ok { stored with spec := { m with beginTime := b2, endTime := e2, duration := d2 } }

/-- The lease as stored after an `UpdateLease` call: the source patches the
object only after `ReconcileLeaseTimeFields` succeeds, so on error the
stored lease is unchanged and the error is returned. -/
def updateLeaseStore (stored : Lease) (caller : String) (req : UpdateLeaseRequest) :
    Lease × Option JErr :=
  match updateLease stored caller req with
  | .ok l2 => (l2, none)
  | .error err => (stored, some err)

/-- **C6.** The lease time triple obeys `endTime = beginTime + duration`:
any two of the fields determine the third under
`ReconcileLeaseTimeFields`, and an `UpdateLease` whose provided fields
merge to an inconsistent full triple is rejected with an error while the
stored lease is left unchanged. -/
theorem updateLease_time_triple (stored : Lease) (caller : String)
    (req : UpdateLeaseRequest) (b e d : Nat)
    (hcl : stored.spec.clientRef = caller)
    (hbegin : beginUpdateAllowed stored req = true)
    (hb : (mergeLeaseTimeReq stored.spec req).beginTime = some b)
    (he : (mergeLeaseTimeReq stored.spec req).endTime = some e)
    (hd : (mergeLeaseTimeReq stored.spec req).duration = d)
    (hd0 : d ≠ 0) (hbad : e ≠ b + d) :
    reconcileLeaseTimeFields (some b) none d = .ok (some b, some (b + d), d)
    ∧ reconcileLeaseTimeFields none (some (b + d)) d = .ok (some b, some (b + d), d)
    ∧ reconcileLeaseTimeFields (some b) (some (b + d)) 0 = .ok (some b, some (b + d), d)
    ∧ reconcileLeaseTimeFields (some b) (some e) d
        = .error (.goError "inconsistent lease time fields")
    ∧ updateLeaseStore stored caller req
        = (stored, some (.goError "inconsistent lease time fields")) := by
  refine ⟨?_, ?_, ?_, ?_, ?_⟩
  · simp [reconcileLeaseTimeFields, hd0]
  · simp [reconcileLeaseTimeFields, hd0, Nat.le_add_left, Nat.add_sub_cancel]
  · simp [reconcileLeaseTimeFields, Nat.le_add_right, Nat.add_sub_cancel_left]
  · simp [reconcileLeaseTimeFields, hd0, hbad]
  · unfold updateLeaseStore updateLease
    rw [if_neg (by simp [hcl]), if_neg (by simp [hbegin])]
    simp only [hb, he, hd]
    simp [reconcileLeaseTimeFields, hd0, hbad]

/-- A concrete stored lease for the `updateLease_time_triple` witness. -/
def storedLease : Lease :=
  { name := "lease2"
    spec := { clientRef := "client-a", selector := [], duration := 5,
              beginTime := none, endTime := none, release := false }
    status := { beginTime := none, endTime := none, exporterRef := none,
                ended := false, conditions := [] } }

/-- A concrete inconsistent update request (`20 ≠ 10 + 5`). -/
def badTimeReq : UpdateLeaseRequest :=
  { beginTime := some 10, duration := none, endTime := some 20 }

/-- Witness for `updateLease_time_triple` on a concrete inconsistent
update. -/
theorem updateLease_time_triple_witness :
    (storedLease.spec.clientRef = "client-a"
      ∧ beginUpdateAllowed storedLease badTimeReq = true
      ∧ (mergeLeaseTimeReq storedLease.spec badTimeReq).beginTime = some 10
      ∧ (mergeLeaseTimeReq storedLease.spec badTimeReq).endTime = some 20
      ∧ (mergeLeaseTimeReq storedLease.spec badTimeReq).duration = 5
      ∧ (5 : Nat) ≠ 0 ∧ (20 : Nat) ≠ 10 + 5)
    ∧ (reconcileLeaseTimeFields (some 10) none 5 = .ok (some 10, some (10 + 5), 5)
      ∧ reconcileLeaseTimeFields none (some (10 + 5)) 5 = .ok (some 10, some (10 + 5), 5)
      ∧ reconcileLeaseTimeFields (some 10) (some (10 + 5)) 0 = .ok (some 10, some (10 + 5), 5)
      ∧ reconcileLeaseTimeFields (some 10) (some 20) 5
          = .error (.goError "inconsistent lease time fields")
      ∧ updateLeaseStore storedLease "client-a" badTimeReq
          = (storedLease, some (.goError "inconsistent lease time fields"))) :=
  ⟨⟨by decide, by decide, by decide, by decide, by decide, by decide, by decide⟩,
    updateLease_time_triple storedLease "client-a" badTimeReq 10 20 5
      (by decide) (by decide) (by decide) (by decide) (by decide) (by decide) (by decide)⟩

/-! ## Object-bound tokens: `VerifyObjectToken` -/

/-- `JumpstarterClaims`: registered JWT claims plus the Kubernetes object
reference (kind, namespace, name, UID, apiVersion). -/
structure JumpstarterClaims where
  registered : JwtClaims
  kind : String
  ns : String
  name : String
  uid : String
  apiVersion : String
deriving DecidableEq, Repr

/-- An HMAC-signed object-bound token (same structural signature embedding
as `SignedToken`). -/
structure ObjectToken where
  claims : JumpstarterClaims
  alg : String
  key : String
deriving DecidableEq, Repr

/-- A stored Kubernetes object as far as `VerifyObjectToken` consults it:
namespaced name and UID. -/
structure K8sObject where
  ns : String
  name : String
  uid : String
deriving DecidableEq, Repr

/-- The `jwt.ParseWithClaims` validation performed by `VerifyObjectToken`:
signature under `CONTROLLER_KEY`, pinned issuer and audience, issued-at /
not-before / expiry validated when present (no `WithExpirationRequired`
here: object tokens live as long as the object), HMAC algorithms only. -/
def objectTokenValid (controllerKey issuer audience : String) (tok : ObjectToken)
    (now : Nat) : Bool :=
  (tok.key == controllerKey)
  && hmacAlgs.contains tok.alg
  && (tok.claims.registered.issuer == issuer)
  && tok.claims.registered.audience.contains audience
  && (match tok.claims.registered.issuedAt with | some t => decide (t ≤ now) | none => true)
  && (match tok.claims.registered.notBefore with | some t => decide (t ≤ now) | none => true)
  && (match tok.claims.registered.expiresAt with | some t => decide (now < t) | none => true)

/-- `VerifyObjectToken`: parse and validate the token, then `Get` the object
named by the claims; a missing object surfaces the store error, a UID
mismatch yields `"VerifyObjectToken: UID mismatch"`, and only then is the
object returned. -/
def verifyObjectToken (controllerKey issuer audience : String) (tok : ObjectToken)
    (store : List K8sObject) (now : Nat) : Except JErr K8sObject :=
  if objectTokenValid controllerKey issuer audience tok now then
    match store.find? (fun o => o.ns == tok.claims.ns && o.name == tok.claims.name) with
    | none => .error (.goError "object not found")
    | some o =>
        if o.uid ≠ tok.claims.uid then .error (.goError "VerifyObjectToken: UID mismatch")
        else .ok o
  else .error (.goError "invalid object token")

/-- **C9.** `VerifyObjectToken` returns the referenced object exactly when
the token validates (issuer, audience, time claims, HMAC allow-list,
signature key), the object named by the claims exists, and its UID equals
the token's UID claim; in every other case — including a recreated object
with the same name but a different UID — it returns an error. -/
theorem verifyObjectToken_ok_iff (controllerKey issuer audience : String)
    (tok : ObjectToken) (store : List K8sObject) (now : Nat) (o : K8sObject) :
    verifyObjectToken controllerKey issuer audience tok store now = .ok o
      ↔ objectTokenValid controllerKey issuer audience tok now = true
        ∧ store.find? (fun x => x.ns == tok.claims.ns && x.name == tok.claims.name) = some o
        ∧ o.uid = tok.claims.uid := by
  unfold verifyObjectToken
  by_cases hv : objectTokenValid controllerKey issuer audience tok now = true
  · rw [if_pos hv]
    cases hfind : store.find? fun x => x.ns == tok.claims.ns && x.name == tok.claims.name with
    | none => simp [hv]
    | some o2 =>
        dsimp only
        by_cases hu : o2.uid = tok.claims.uid
        · rw [if_neg (by simpa using hu)]
          constructor
          · intro h
            injection h with h
            subst h
            exact ⟨hv, rfl, hu⟩
          · rintro ⟨-, h2, -⟩
            injection h2 with h2
            subst h2
            rfl
        · rw [if_pos (by simpa using hu)]
          constructor
          · intro h
            exact absurd h (by simp)
          · rintro ⟨-, h2, h3⟩
            injection h2 with h2
            subst h2
            exact absurd h3 hu
  · rw [if_neg hv]
    simp [hv]

/-- A concrete valid object token for the `verifyObjectToken_ok_iff`
witness. -/
def exporterObjToken : ObjectToken :=
  { claims :=
      { registered :=
          { issuer := "https://jumpstarter.dev/controller"
            subject := "uid-1"
            audience := ["https://jumpstarter.dev/controller"]
            expiresAt := none
            notBefore := some 0
            issuedAt := some 0
            jwtId := "jti-1" }
        kind := "Exporter"
        ns := "default"
        name := "exporter1"
        uid := "uid-1"
        apiVersion := "jumpstarter.dev/v1alpha1" }
    alg := "HS256"
    key := "ck" }

/-- The object as recreated with the same name but a fresh UID. -/
def recreatedExporter : K8sObject := { ns := "default", name := "exporter1", uid := "uid-2" }

/-- Witness for `verifyObjectToken_ok_iff`: against the recreated object the
token does not verify (UID mismatch), by the right-to-left reading of the
equivalence at a concrete input. -/
theorem verifyObjectToken_ok_iff_witness :
    verifyObjectToken "ck" "https://jumpstarter.dev/controller"
        "https://jumpstarter.dev/controller" exporterObjToken [recreatedExporter] 3
      ≠ .ok recreatedExporter :=
  fun h =>
    absurd
      ((verifyObjectToken_ok_iff "ck" "https://jumpstarter.dev/controller"
          "https://jumpstarter.dev/controller" exporterObjToken [recreatedExporter] 3
          recreatedExporter).mp h).2.2
      (by decide)

/-! ## Lease scheduler and exporter back-reference reconciliation

The `LeaseReconciler.Reconcile` body is not among the provided sources
(only its test harness is), so its per-lease reconciliation step is
modelled from the spec (§4.1); the exporter-side `reconcileStatusLeaseRef`
is embedded from the `ExporterReconciler` source. -/

/-- `meta.IsStatusConditionTrue` over the condition list embedding. -/
def isConditionTrue (conds : List (String × Bool)) (t : String) : Bool :=
  match conds.find? (fun c => c.1 == t) with
  | some c => c.2
  | none => false

/-- `meta.SetStatusCondition`: idempotent set-by-type (replace in place, or
append when the type is new). -/
def setCondition (conds : List (String × Bool)) (t : String) (v : Bool) :
    List (String × Bool) :=
  if conds.any (fun c => c.1 == t) then
    conds.map fun c => if c.1 == t then (t, v) else c
  else conds ++ [(t, v)]

/-- Label-selector `matchLabels` semantics: every selector key must map to
the required value in the exporter's labels. -/
def matchesSelector (sel lbls : List (String × String)) : Bool :=
  sel.all fun kv => lookupKey kv.1 lbls == some kv.2

/-- An exporter is usable only when its `Online` condition is true. -/
def exporterOnline (e : Exporter) : Bool := isConditionTrue e.conditions "Online"

/-- No active lease other than `lname` is bound to exporter `ename`. -/
def exporterFree (leases : List Lease) (lname ename : String) : Bool :=
  leases.all fun l2 =>
    l2.name == lname || l2.status.ended || !(l2.status.exporterRef == some ename)

/-- The store contents a reconciliation pass works on. -/
structure ClusterState where
  exporters : List Exporter
  leases : List Lease
deriving DecidableEq, Repr

/-- Patch the status of the lease named `lname`. -/
def setLeaseStatus (st : ClusterState) (lname : String) (f : LeaseStatus → LeaseStatus) :
    ClusterState :=
  { st with
      leases := st.leases.map fun l =>
        if l.name == lname then { l with status := f l.status } else l }

/-- Modelled from the spec: one `LeaseReconciler` pass over a single lease
(§4.1), with the policy engine out of scope for the settled claims. An
ended lease is left alone; a bound lease ends when the wall clock passed
`endTime` or the client set `release` (keeping `exporterRef` for record
purposes); a pending lease is bound to an online matching exporter with no
active binding when one exists (`beginTime`/`endTime` computed at binding
time), is marked `Unsatisfiable` when no matching exporter exists or every
matching exporter is offline, and otherwise stays `Pending`. -/
def reconcileLease (now : Nat) (st : ClusterState) (lname : String) : ClusterState :=
  match st.leases.find? (fun l => l.name == lname) with
  | none => st
  | some l =>
    if l.status.ended then st
    else
      match l.status.exporterRef with
      | some _ =>
          if l.spec.release
              || (match l.status.endTime with
                  | some et => decide (et ≤ now)
                  | none => false) then
            setLeaseStatus st lname fun s =>
              { s with
                  ended := true
                  conditions :=
                    setCondition (setCondition s.conditions "Ready" false) "Ended" true }
          else st
      | none =>
          let matching :=
            st.exporters.filter fun x => matchesSelector l.spec.selector x.labels
          match matching.filter
              (fun x => exporterOnline x && exporterFree st.leases l.name x.name) with
          | e :: _ =>
              setLeaseStatus st lname fun s =>
                { s with
                    exporterRef := some e.name
                    beginTime := some now
                    endTime := some (now + l.spec.duration)
                    conditions :=
                      setCondition (setCondition s.conditions "Pending" false) "Ready" true }
          | [] =>
              if matching.all (fun x => !exporterOnline x) then
                setLeaseStatus st lname fun s =>
                  { s with conditions := setCondition s.conditions "Unsatisfiable" true }
              else
                setLeaseStatus st lname fun s =>
                  { s with conditions := setCondition s.conditions "Pending" true }

/-- The loop body of `ExporterReconciler.reconcileStatusLeaseRef`: starting
from `nil`, every listed lease that is not ended and whose
`status.exporterRef` names this exporter overwrites the back-pointer (the
listing already excludes label-marked ended leases; the loop re-checks
`!lease.Status.Ended`, so folding over all leases is equivalent). -/
def computeLeaseRef (leases : List Lease) (ename : String) : Option String :=
  leases.foldl
    (fun acc l =>
      if !l.status.ended && l.status.exporterRef == some ename then some l.name else acc)
    none

/-- `ExporterReconciler.reconcileStatusLeaseRef` for the exporter named
`ename`: recompute the derived `status.leaseRef` from the active leases. -/
def reconcileExporterLeaseRef (st : ClusterState) (ename : String) : ClusterState :=
  { st with
      exporters := st.exporters.map fun e =>
        if e.name == ename then { e with leaseRef := computeLeaseRef st.leases ename } else e }

theorem find?_map_update_lease (leases : List Lease) (lname : String)
    (f : LeaseStatus → LeaseStatus) (l : Lease)
    (h : leases.find? (fun x => x.name == lname) = some l) :
    (leases.map fun x =>
        if x.name == lname then { x with status := f x.status } else x).find?
      (fun x => x.name == lname) = some { l with status := f l.status } := by
  induction leases with
  | nil => simp at h
  | cons x xs ih =>
      by_cases hx : x.name = lname
      · rw [List.find?_cons_of_pos _ (by simp [hx])] at h
        injection h with h
        subst h
        simp only [List.map_cons, if_pos (by simp [hx] : (x.name == lname) = true)]
        exact List.find?_cons_of_pos _ (by simp [hx])
      · rw [List.find?_cons_of_neg _ (by simp [hx])] at h
        simp only [List.map_cons, if_neg (by simp [hx] : ¬(x.name == lname) = true)]
        rw [List.find?_cons_of_neg _ (by simp [hx])]
        exact ih h

theorem find?_map_update_exporter (exporters : List Exporter) (ename : String)
    (v : Option String) (ex : Exporter)
    (h : exporters.find? (fun x => x.name == ename) = some ex) :
    (exporters.map fun x =>
        if x.name == ename then { x with leaseRef := v } else x).find?
      (fun x => x.name == ename) = some { ex with leaseRef := v } := by
  induction exporters with
  | nil => simp at h
  | cons x xs ih =>
      by_cases hx : x.name = ename
      · rw [List.find?_cons_of_pos _ (by simp [hx])] at h
        injection h with h
        subst h
        simp only [List.map_cons, if_pos (by simp [hx] : (x.name == ename) = true)]
        exact List.find?_cons_of_pos _ (by simp [hx])
      · rw [List.find?_cons_of_neg _ (by simp [hx])] at h
        simp only [List.map_cons, if_neg (by simp [hx] : ¬(x.name == ename) = true)]
        rw [List.find?_cons_of_neg _ (by simp [hx])]
        exact ih h

theorem leaseRef_foldl_no_hit (leases : List Lease) (ename : String) (acc : Option String)
    (h : ∀ l ∈ leases, l.status.ended = true ∨ l.status.exporterRef ≠ some ename) :
    leases.foldl
        (fun acc l =>
          if !l.status.ended && l.status.exporterRef == some ename then some l.name else acc)
        acc = acc := by
  induction leases generalizing acc with
  | nil => rfl
  | cons x xs ih =>
      have hx := h x (by simp)
      have hcond : (!x.status.ended && x.status.exporterRef == some ename) = false := by
        rcases hx with hx | hx
        · simp [hx]
        · simp [hx]
      simp only [List.foldl_cons, hcond, Bool.false_eq_true, if_false]
      exact ih acc fun l hl => h l (by simp [hl])

theorem computeLeaseRef_none (leases : List Lease) (ename : String)
    (h : ∀ l ∈ leases, l.status.ended = true ∨ l.status.exporterRef ≠ some ename) :
    computeLeaseRef leases ename = none :=
  leaseRef_foldl_no_hit leases ename none h

theorem computeLeaseRef_unique (leases : List Lease) (ename lname : String) (l : Lease)
    (hmem : l ∈ leases)
    (hname : l.name = lname)
    (hended : l.status.ended = false)
    (href : l.status.exporterRef = some ename)
    (hothers : ∀ l2 ∈ leases, l2.name ≠ lname →
      l2.status.ended = true ∨ l2.status.exporterRef ≠ some ename)
    (hnodup : (leases.map fun x => x.name).Nodup) :
    computeLeaseRef leases ename = some lname := by
  induction leases with
  | nil => simp at hmem
  | cons x xs ih =>
      have hnodup2 : (xs.map fun x => x.name).Nodup := (List.nodup_cons.mp hnodup).2
      have hxnot : x.name ∉ xs.map fun x => x.name := (List.nodup_cons.mp hnodup).1
      rcases List.mem_cons.mp hmem with hlx | hlxs
      · subst hlx
        have hcond : (!l.status.ended && l.status.exporterRef == some ename) = true := by
          simp [hended, href]
        unfold computeLeaseRef
        simp only [List.foldl_cons, hcond, if_pos]
        rw [hname]
        apply leaseRef_foldl_no_hit
        intro l2 hl2
        apply hothers l2 (by simp [hl2])
        intro heq
        exact hxnot (by
          rw [hname, ← heq]
          exact List.mem_map_of_mem (fun x => x.name) hl2)
      · have hxname : x.name ≠ lname := by
          intro heq
          exact hxnot (by
            rw [heq, ← hname]
            exact List.mem_map_of_mem (fun x => x.name) hlxs)
        have hxcond : (!x.status.ended && x.status.exporterRef == some ename) = false := by
          rcases hothers x (by simp) hxname with hx | hx
          · simp [hx]
          · simp [hx]
        unfold computeLeaseRef
        simp only [List.foldl_cons, hxcond, Bool.false_eq_true, if_false]
        exact ih hlxs (fun l2 hl2 h2 => hothers l2 (by simp [hl2]) h2) hnodup2

theorem find?_set_aux (conds : List (String × Bool)) (t : String) (v : Bool)
    (h : conds.any (fun c => c.1 == t) = true) :
    (conds.map fun c => if c.1 == t then (t, v) else c).find? (fun c => c.1 == t)
      = some (t, v) := by
  induction conds with
  | nil => simp at h
  | cons c cs ih =>
      by_cases hc : c.1 = t
      · simp only [List.map_cons, if_pos (by simp [hc] : (c.1 == t) = true)]
        exact List.find?_cons_of_pos _ (by simp)
      · have h2 : cs.any (fun c => c.1 == t) = true := by
          simpa [List.any_cons, hc] using h
        simp only [List.map_cons, if_neg (by simp [hc] : ¬(c.1 == t) = true)]
        rw [List.find?_cons_of_neg _ (by simp [hc])]
        exact ih h2

theorem find?_append_of_all_neg {α : Type} (xs ys : List α) (p : α → Bool)
    (h : xs.any p = false) :
    (xs ++ ys).find? p = ys.find? p := by
  induction xs with
  | nil => rfl
  | cons x xs ih =>
      rw [List.any_cons] at h
      have hx : p x = false := by
        cases hpx : p x
        · rfl
        · rw [hpx] at h
          simp at h
      have hxs : xs.any p = false := by
        cases hany : xs.any p
        · rfl
        · rw [hany] at h
          simp at h
      simp only [List.cons_append]
      rw [List.find?_cons_of_neg _ (by simp [hx])]
      exact ih hxs

theorem isConditionTrue_setCondition (conds : List (String × Bool)) (t : String) (v : Bool) :
    isConditionTrue (setCondition conds t v) t = v := by
  unfold setCondition isConditionTrue
  by_cases h : conds.any (fun c => c.1 == t) = true
  · rw [if_pos h, find?_set_aux conds t v h]
  · rw [if_neg h]
    rw [find?_append_of_all_neg _ _ _ (Bool.not_eq_true _ ▸ h)]
    rw [List.find?_cons_of_pos _ (by simp)]

theorem map_names_eq (leases : List Lease) (g : Lease → Lease)
    (h : ∀ x, (g x).name = x.name) :
    ((leases.map g).map fun x => x.name) = leases.map fun x => x.name := by
  induction leases with
  | nil => rfl
  | cons x xs ih => simp [h, ih]

/-- **C1.** For a pending lease (no `exporterRef`, not ended): when the
filtered candidate list — exporters matching the selector that are `Online`
and have no active binding held by another lease — is non-empty, one
reconciliation binds the lease to its first candidate (`exporterRef` and
`beginTime` become set) and a subsequent reconciliation of that exporter
makes its `status.leaseRef` point back to the lease; when instead every
matching exporter is offline (in particular when no exporter matches), one
reconciliation sets the `Unsatisfiable` condition to true and
`exporterRef` stays unset. -/
theorem reconcileLease_pending (now : Nat) (st : ClusterState) (lname : String)
    (l : Lease) (e : Exporter) (etail : List Exporter) (ex : Exporter)
    (hfind : st.leases.find? (fun x => x.name == lname) = some l)
    (hnodup : (st.leases.map fun x => x.name).Nodup)
    (hended : l.status.ended = false)
    (hpend : l.status.exporterRef = none) :
    ((st.exporters.filter fun x => matchesSelector l.spec.selector x.labels).filter
        (fun x => exporterOnline x && exporterFree st.leases l.name x.name) = e :: etail →
      matchesSelector l.spec.selector e.labels = true
      ∧ exporterOnline e = true
      ∧ exporterFree st.leases l.name e.name = true
      ∧ (reconcileLease now st lname).leases.find? (fun x => x.name == lname)
          = some { l with status :=
              { l.status with
                  exporterRef := some e.name
                  beginTime := some now
                  endTime := some (now + l.spec.duration)
                  conditions :=
                    setCondition (setCondition l.status.conditions "Pending" false)
                      "Ready" true } }
      ∧ (st.exporters.find? (fun x => x.name == e.name) = some ex →
          (reconcileExporterLeaseRef (reconcileLease now st lname) e.name).exporters.find?
            (fun x => x.name == e.name) = some { ex with leaseRef := some lname }))
    ∧ ((st.exporters.filter fun x => matchesSelector l.spec.selector x.labels).all
          (fun x => !exporterOnline x) = true →
      (reconcileLease now st lname).leases.find? (fun x => x.name == lname)
        = some { l with status :=
            { l.status with
                conditions := setCondition l.status.conditions "Unsatisfiable" true } }
      ∧ isConditionTrue (setCondition l.status.conditions "Unsatisfiable" true)
          "Unsatisfiable" = true
      ∧ l.status.exporterRef = none) := by
  have hlname : l.name = lname := by
    have := List.find?_some hfind
    simpa using this
  have hlmem : l ∈ st.leases := List.mem_of_find?_eq_some hfind
  constructor
  · intro havail
    have hemem : e ∈ (st.exporters.filter fun x =>
        matchesSelector l.spec.selector x.labels).filter
          (fun x => exporterOnline x && exporterFree st.leases l.name x.name) := by
      rw [havail]
      exact List.mem_cons_self e etail
    have hematching := (List.mem_filter.mp hemem).1
    have hecond := (List.mem_filter.mp hemem).2
    have hematches := (List.mem_filter.mp hematching).2
    have hcond2 : exporterOnline e = true ∧ exporterFree st.leases l.name e.name = true := by
      simpa using hecond
    have hst2 : reconcileLease now st lname
        = setLeaseStatus st lname (fun s =>
            { s with
                exporterRef := some e.name
                beginTime := some now
                endTime := some (now + l.spec.duration)
                conditions :=
                  setCondition (setCondition s.conditions "Pending" false) "Ready" true }) := by
      unfold reconcileLease
      rw [hfind]
      simp only [hended, Bool.false_eq_true, if_false]
      rw [hpend]
      dsimp only
      rw [havail]
    have hleases2 : (reconcileLease now st lname).leases
        = st.leases.map fun x =>
            if x.name == lname then
              { x with status :=
                  { x.status with
                      exporterRef := some e.name
                      beginTime := some now
                      endTime := some (now + l.spec.duration)
                      conditions :=
                        setCondition (setCondition x.status.conditions "Pending" false)
                          "Ready" true } }
            else x := by
      rw [hst2]
      rfl
    have hexporters2 : (reconcileLease now st lname).exporters = st.exporters := by
      rw [hst2]
      rfl
    refine ⟨hematches, hcond2.1, hcond2.2, ?_, ?_⟩
    · rw [hleases2]
      exact find?_map_update_lease st.leases lname
        (fun s =>
          { s with
              exporterRef := some e.name
              beginTime := some now
              endTime := some (now + l.spec.duration)
              conditions :=
                setCondition (setCondition s.conditions "Pending" false) "Ready" true })
        l hfind
    · intro hexfind
      have hcompute : computeLeaseRef (reconcileLease now st lname).leases e.name
          = some lname := by
        rw [hleases2]
        apply computeLeaseRef_unique _ _ _
          ({ l with status :=
              { l.status with
                  exporterRef := some e.name
                  beginTime := some now
                  endTime := some (now + l.spec.duration)
                  conditions :=
                    setCondition (setCondition l.status.conditions "Pending" false)
                      "Ready" true } })
        · exact List.mem_map.mpr ⟨l, hlmem, by rw [if_pos (by simp [hlname])]⟩
        · exact hlname
        · exact hended
        · rfl
        · intro l2 hl2 hl2name
          obtain ⟨l0, hl0mem, hl0eq⟩ := List.mem_map.mp hl2
          have h0 : ¬l0.name = lname := by
            intro h0
            apply hl2name
            rw [← hl0eq, if_pos (by simp [h0])]
            exact h0
          have hl02 : l2 = l0 := by
            rw [← hl0eq, if_neg (by simp [h0])]
          rw [hl02]
          have hall := List.all_eq_true.mp hcond2.2 l0 hl0mem
          have h1 : (l0.name == l.name) = false := by
            rw [hlname]
            simp [h0]
          rw [h1] at hall
          simpa using hall
        · rw [map_names_eq st.leases _ (fun x => by
            by_cases hx : x.name = lname <;> simp [hx])]
          exact hnodup
      unfold reconcileExporterLeaseRef
      dsimp only
      rw [hcompute, hexporters2]
      exact find?_map_update_exporter _ _ _ _ hexfind
  · intro hoffline
    have havailnil : (st.exporters.filter fun x =>
        matchesSelector l.spec.selector x.labels).filter
          (fun x => exporterOnline x && exporterFree st.leases l.name x.name) = [] := by
      rw [List.filter_eq_nil_iff]
      intro x hx
      have hxoff := List.all_eq_true.mp hoffline x hx
      simp only [Bool.not_eq_true'] at hxoff
      simp [hxoff]
    have hst2 : reconcileLease now st lname
        = setLeaseStatus st lname (fun s =>
            { s with conditions := setCondition s.conditions "Unsatisfiable" true }) := by
      unfold reconcileLease
      rw [hfind]
      simp only [hended, Bool.false_eq_true, if_false]
      rw [hpend]
      dsimp only
      rw [havailnil, if_pos hoffline]
    refine ⟨?_, isConditionTrue_setCondition _ _ _, hpend⟩
    have hleases2 : (reconcileLease now st lname).leases
        = st.leases.map fun x =>
            if x.name == lname then
              { x with status :=
                  { x.status with
                      conditions := setCondition x.status.conditions "Unsatisfiable" true } }
            else x := by
      rw [hst2]
      rfl
    rw [hleases2]
    exact find?_map_update_lease st.leases lname
      (fun s => { s with conditions := setCondition s.conditions "Unsatisfiable" true })
      l hfind

/-- The online `dut=a` exporter of the scheduler test scenario. -/
def c1Exporter : Exporter :=
  { name := "exporter1-dut-a", uid := "u1", labels := [("dut", "a")], devices := [],
    conditions := [("Registered", true), ("Online", true)], leaseRef := none }

/-- A pending `dut=a` lease of the scheduler test scenario. -/
def c1Lease : Lease :=
  { name := "lease1"
    spec := { clientRef := "test-client", selector := [("dut", "a")], duration := 2,
              beginTime := none, endTime := none, release := false }
    status := { beginTime := none, endTime := none, exporterRef := none,
                ended := false, conditions := [] } }

/-- One online matching exporter, one pending lease. -/
def c1State : ClusterState := { exporters := [c1Exporter], leases := [c1Lease] }

/-- Witness for `reconcileLease_pending` at the concrete one-exporter
scenario. -/
theorem reconcileLease_pending_witness :
    (c1State.leases.find? (fun x => x.name == "lease1") = some c1Lease
      ∧ (c1State.leases.map fun x => x.name).Nodup
      ∧ c1Lease.status.ended = false
      ∧ c1Lease.status.exporterRef = none)
    ∧ (((c1State.exporters.filter fun x =>
            matchesSelector c1Lease.spec.selector x.labels).filter
          (fun x => exporterOnline x && exporterFree c1State.leases c1Lease.name x.name)
            = c1Exporter :: [] →
        matchesSelector c1Lease.spec.selector c1Exporter.labels = true
        ∧ exporterOnline c1Exporter = true
        ∧ exporterFree c1State.leases c1Lease.name c1Exporter.name = true
        ∧ (reconcileLease 3 c1State "lease1").leases.find? (fun x => x.name == "lease1")
            = some { c1Lease with status :=
                { c1Lease.status with
                    exporterRef := some c1Exporter.name
                    beginTime := some 3
                    endTime := some (3 + c1Lease.spec.duration)
                    conditions :=
                      setCondition (setCondition c1Lease.status.conditions "Pending" false)
                        "Ready" true } }
        ∧ (c1State.exporters.find? (fun x => x.name == c1Exporter.name) = some c1Exporter →
            (reconcileExporterLeaseRef (reconcileLease 3 c1State "lease1")
                c1Exporter.name).exporters.find? (fun x => x.name == c1Exporter.name)
              = some { c1Exporter with leaseRef := some "lease1" }))
      ∧ ((c1State.exporters.filter fun x =>
            matchesSelector c1Lease.spec.selector x.labels).all
              (fun x => !exporterOnline x) = true →
        (reconcileLease 3 c1State "lease1").leases.find? (fun x => x.name == "lease1")
          = some { c1Lease with status :=
              { c1Lease.status with
                  conditions := setCondition c1Lease.status.conditions "Unsatisfiable" true } }
        ∧ isConditionTrue (setCondition c1Lease.status.conditions "Unsatisfiable" true)
            "Unsatisfiable" = true
        ∧ c1Lease.status.exporterRef = none)) :=
  ⟨⟨by decide, by decide, by decide, by decide⟩,
    reconcileLease_pending 3 c1State "lease1" c1Lease c1Exporter [] c1Exporter
      (by decide) (by decide) (by decide) (by decide)⟩

/-- **C2.** For a lease bound to an exporter (not ended): when the wall
clock has passed its end time or the client has set `spec.release`, one
reconciliation sets `status.ended` to true while `status.exporterRef`
remains set to the bound exporter, and a subsequent reconciliation of that
exporter clears its `status.leaseRef` (given that no other active lease
references the exporter). -/
theorem reconcileLease_ended (now : Nat) (st : ClusterState) (lname ename : String)
    (l : Lease) (ex : Exporter)
    (hfind : st.leases.find? (fun x => x.name == lname) = some l)
    (hended : l.status.ended = false)
    (href : l.status.exporterRef = some ename)
    (htrig : (l.spec.release
        || (match l.status.endTime with
            | some et => decide (et ≤ now)
            | none => false)) = true)
    (hothers : ∀ l2 ∈ st.leases, l2.name ≠ lname →
      l2.status.ended = true ∨ l2.status.exporterRef ≠ some ename)
    (hexfind : st.exporters.find? (fun x => x.name == ename) = some ex) :
    (reconcileLease now st lname).leases.find? (fun x => x.name == lname)
      = some { l with status :=
          { l.status with
              ended := true
              conditions :=
                setCondition (setCondition l.status.conditions "Ready" false) "Ended" true } }
    ∧ ({ l.status with
          ended := true
          conditions :=
            setCondition (setCondition l.status.conditions "Ready" false)
              "Ended" true }).exporterRef = some ename
    ∧ (reconcileExporterLeaseRef (reconcileLease now st lname) ename).exporters.find?
        (fun x => x.name == ename) = some { ex with leaseRef := none } := by
  have hst2 : reconcileLease now st lname
      = setLeaseStatus st lname (fun s =>
          { s with
              ended := true
              conditions :=
                setCondition (setCondition s.conditions "Ready" false) "Ended" true }) := by
    unfold reconcileLease
    rw [hfind]
    simp only [hended, Bool.false_eq_true, if_false]
    rw [href]
    dsimp only
    rw [if_pos htrig]
  have hleases2 : (reconcileLease now st lname).leases
      = st.leases.map fun x =>
          if x.name == lname then
            { x with status :=
                { x.status with
                    ended := true
                    conditions :=
                      setCondition (setCondition x.status.conditions "Ready" false)
                        "Ended" true } }
          else x := by
    rw [hst2]
    rfl
  have hexporters2 : (reconcileLease now st lname).exporters = st.exporters := by
    rw [hst2]
    rfl
  refine ⟨?_, href, ?_⟩
  · rw [hleases2]
    exact find?_map_update_lease st.leases lname
      (fun s =>
        { s with
            ended := true
            conditions :=
              setCondition (setCondition s.conditions "Ready" false) "Ended" true })
      l hfind
  · have hcompute : computeLeaseRef (reconcileLease now st lname).leases ename = none := by
      rw [hleases2]
      apply computeLeaseRef_none
      intro l2 hl2
      obtain ⟨l0, hl0mem, hl0eq⟩ := List.mem_map.mp hl2
      by_cases h0 : l0.name = lname
      · left
        rw [← hl0eq, if_pos (by simp [h0])]
      · have hl02 : l2 = l0 := by
          rw [← hl0eq, if_neg (by simp [h0])]
        rw [hl02]
        exact hothers l0 hl0mem h0
    unfold reconcileExporterLeaseRef
    dsimp only
    rw [hcompute, hexporters2]
    exact find?_map_update_exporter _ _ _ _ hexfind

/-- The bound `dut=b` exporter of the release scenario. -/
def c2Exporter : Exporter :=
  { name := "exporter3-dut-b", uid := "u3", labels := [("dut", "b")], devices := [],
    conditions := [("Online", true)], leaseRef := some "lease9" }

/-- An active lease bound to the exporter, released early by the client. -/
def c2Lease : Lease :=
  { name := "lease9"
    spec := { clientRef := "test-client", selector := [("dut", "b")], duration := 2,
              beginTime := none, endTime := none, release := true }
    status := { beginTime := some 1, endTime := some 3,
                exporterRef := some "exporter3-dut-b", ended := false,
                conditions := [("Ready", true)] } }

/-- One bound exporter, one released lease. -/
def c2State : ClusterState := { exporters := [c2Exporter], leases := [c2Lease] }

/-- Witness for `reconcileLease_ended` at the concrete release scenario. -/
theorem reconcileLease_ended_witness :
    (c2State.leases.find? (fun x => x.name == "lease9") = some c2Lease
      ∧ c2Lease.status.ended = false
      ∧ c2Lease.status.exporterRef = some "exporter3-dut-b"
      ∧ (c2Lease.spec.release
          || (match c2Lease.status.endTime with
              | some et => decide (et ≤ 10)
              | none => false)) = true
      ∧ (∀ l2 ∈ c2State.leases, l2.name ≠ "lease9" →
          l2.status.ended = true ∨ l2.status.exporterRef ≠ some "exporter3-dut-b")
      ∧ c2State.exporters.find? (fun x => x.name == "exporter3-dut-b") = some c2Exporter)
    ∧ ((reconcileLease 10 c2State "lease9").leases.find? (fun x => x.name == "lease9")
        = some { c2Lease with status :=
            { c2Lease.status with
                ended := true
                conditions :=
                  setCondition (setCondition c2Lease.status.conditions "Ready" false)
                    "Ended" true } }
      ∧ ({ c2Lease.status with
            ended := true
            conditions :=
              setCondition (setCondition c2Lease.status.conditions "Ready" false)
                "Ended" true }).exporterRef = some "exporter3-dut-b"
      ∧ (reconcileExporterLeaseRef (reconcileLease 10 c2State "lease9")
            "exporter3-dut-b").exporters.find? (fun x => x.name == "exporter3-dut-b")
          = some { c2Exporter with leaseRef := none }) :=
  ⟨⟨by decide, by decide, by decide, by decide, by decide, by decide⟩,
    reconcileLease_ended 10 c2State "lease9" "exporter3-dut-b" c2Lease c2Exporter
      (by decide) (by decide) (by decide) (by decide) (by decide) (by decide)⟩

end Jumpstarter
